import Mathlib

/-!
A shallow embedding of `src/lambda_function.py`, an AWS Lambda handler that
routes HTTP requests to CRUD operations over a DynamoDB table of "items".

Modelling conventions:
* The DynamoDB table is a list of items (`Store`); `get_item`, `put_item`,
  `delete_item` and `scan` on the table become pure list operations.
  Store-level failures (network errors raised by boto3) are external and are
  not modelled: every store call succeeds. The one deterministic client-side
  failure is modelled: `table.update_item` rejects
  `ExpressionAttributeNames=None` (source line 159) before any network I/O.
* `datetime.utcnow()` reads are explicit parameters, in the order the source
  performs them (`create_item` reads the clock twice: line 107 for
  `created_at`, line 108 for `updated_at`; `update_item` reads once).
  Timestamps are abstract clock values (`Nat`); `isoformat` renders them.
* `str(uuid.uuid4())` is an explicit parameter (`gen_id`): the generated id
  is supplied by the environment's random generator.
* Python numbers are modelled exactly: a `Decimal` is `m * 10 ^ e` (`Dec`),
  an IEEE-754 double is `m * 2 ^ e` with a 53-bit mantissa (`Dbl`).
  `json.loads` turns a JSON number literal into a double by correct rounding
  (`dblOfDec`); `str`/`repr` of a double is its shortest round-tripping
  decimal (`decOfDbl`); `float(Decimal)` is again correct rounding.
* A parsed JSON body is an association list `Body`; `event["body"]` is
  `Option (Except String Body)`: `none` when the key is absent (the source
  then parses `"{}"`), `some (.error m)` when `json.loads` would raise,
  `some (.ok d)` when it yields the dictionary `d`.
* Exceptions are `Except String`; the messages are descriptive stand-ins for
  the Python exception text (their exact wording is not modelled).
* `json.dumps(..., cls=DecimalEncoder)` is modelled at the level of the JSON
  document it produces (`Json`); a numeric literal in the output carries the
  exact decimal value of the digits that would be printed.
-/

/-! ## Exact decimal and binary scaled integers -/

/-- A Python `Decimal`: the exact value `m * 10 ^ e` (digits and exponent). -/
structure Dec where
  m : Int
  e : Int
deriving Repr, DecidableEq

/-- An IEEE-754 double: the exact value `m * 2 ^ e`. Values produced by
`dblOfDec` are canonical: `|m| ∈ [2^52, 2^53)` or `m = 0`. -/
structure Dbl where
  m : Int
  e : Int
deriving Repr, DecidableEq

/-- Fuel-driven base-`b` logarithm on `Nat` (structural recursion so that
closed instances reduce in the kernel). `natLog b n = ⌊log_b n⌋` for
`b ≥ 2`, `n ≥ 1`. -/
def natLogAux (b : Nat) : Nat → Nat → Nat
  | 0, _ => 0
  | fuel + 1, n => if b ≤ n then natLogAux b fuel (n / b) + 1 else 0

def natLog (b n : Nat) : Nat := natLogAux b n n

/-- Does `b ^ e ≤ n / d` hold (as rationals), for `n, d ≥ 1`? -/
def powLeRat (b n d : Nat) (e : Int) : Bool :=
  if 0 ≤ e then d * b ^ e.toNat ≤ n else d ≤ n * b ^ (-e).toNat

/-- `⌊log_b (n / d)⌋` for `b ≥ 2` and `n, d ≥ 1`, computed exactly. -/
def ratLogFloor (b n d : Nat) : Int :=
  if d ≤ n then (natLog b (n / d) : Int)
  else
    let F := natLog b (d / n)
    if powLeRat b n d (-(F : Int)) then -(F : Int) else -(F : Int) - 1

/-- Round `num / den` to the nearest integer, ties to even. -/
def halfEvenDiv (num den : Nat) : Nat :=
  let q := num / den
  let r := num % den
  if den < 2 * r then q + 1
  else if 2 * r < den then q
  else if q % 2 = 0 then q else q + 1

/-- Round the positive rational `n / d` to the nearest double (53-bit
mantissa, ties to even; exponent range is not clamped). -/
def dblOfPosRat (n d : Nat) : Dbl :=
  let E := ratLogFloor 2 n d
  let s : Int := 52 - E
  let nd := if 0 ≤ s then (n * 2 ^ s.toNat, d) else (n, d * 2 ^ (-s).toNat)
  let m := halfEvenDiv nd.1 nd.2
  if m = 2 ^ 53 then ⟨(2 : Int) ^ 52, E - 51⟩ else ⟨(m : Int), E - 52⟩

/-- Correctly rounded conversion of an exact decimal to a double: models both
`json.loads` reading a number literal and `float(Decimal(...))`. -/
def dblOfDec (x : Dec) : Dbl :=
  if x.m = 0 then ⟨0, 0⟩
  else
    let n0 := x.m.natAbs
    let nd := if 0 ≤ x.e then (n0 * 10 ^ x.e.toNat, 1) else (n0, 10 ^ (-x.e).toNat)
    let p := dblOfPosRat nd.1 nd.2
    if x.m < 0 then ⟨-p.m, p.e⟩ else p

/-- Shortest decimal that rounds back to the given positive double: the value
of Python's `repr`/`str` of the float. Searches precisions 1..17; 17
significant digits always round-trip, so the fallback is never reached. -/
def decOfDblPos (x : Dbl) : Dec :=
  let n0 := x.m.toNat
  let nd := if 0 ≤ x.e then (n0 * 2 ^ x.e.toNat, 1) else (n0, 2 ^ (-x.e).toNat)
  let D := ratLogFloor 10 nd.1 nd.2
  let attempt : Nat → Option Dec := fun p =>
    let s : Int := (p : Int) - 1 - D
    let nd2 := if 0 ≤ s then (nd.1 * 10 ^ s.toNat, nd.2) else (nd.1, nd.2 * 10 ^ (-s).toNat)
    let mm := halfEvenDiv nd2.1 nd2.2
    let cand : Dec := ⟨(mm : Int), -s⟩
    if dblOfDec cand = x then some cand else none
  (((List.range 17).map (· + 1)).findSome? attempt).getD
    (if 0 ≤ x.e then ⟨(nd.1 : Int), 0⟩ else ⟨(n0 : Int) * 5 ^ (-x.e).toNat, x.e⟩)

/-- `Decimal(str(f))` / the digits `json.dumps` prints for a float `f`. -/
def decOfDbl (x : Dbl) : Dec :=
  if x.m = 0 then ⟨0, -1⟩
  else if x.m < 0 then
    let p := decOfDblPos ⟨-x.m, x.e⟩
    ⟨-p.m, p.e⟩
  else decOfDblPos x

/-- Python `int(f)` on a float: truncation toward zero. -/
def dblTrunc (x : Dbl) : Int :=
  if 0 ≤ x.e then x.m * 2 ^ x.e.toNat else x.m.tdiv (2 ^ (-x.e).toNat)

/-! ## Parsed JSON / Python values -/

/-- A value in a parsed JSON body (what `json.loads` yields for a scalar).
Nested objects and arrays are not modelled; the handler only copies body
values opaquely or coerces scalars. -/
inductive PyVal where
  | str (s : String)
  | int (n : Int)
  | float (x : Dbl)
  | bool (b : Bool)
  | none
deriving Repr, DecidableEq

/-- A parsed JSON object body: `json.loads` output, keys distinct. -/
abbrev Body := List (String × PyVal)

/-- Python `body[k]` / `k in body` lookup. -/
def dictGet (body : Body) (k : String) : Option PyVal :=
  (body.find? (fun kv => kv.1 == k)).map (·.2)

/-- Consume leading decimal digits: value, digit count, rest. -/
def takeDigits (l : List Char) : Nat × Nat × List Char :=
  let ds := l.takeWhile Char.isDigit
  (ds.foldl (fun a c => a * 10 + (c.toNat - 48)) 0, ds.length, l.dropWhile Char.isDigit)

/-- Core of `Decimal(string)`: optional sign, digits with optional fraction,
optional exponent. `none` when the string is not a valid numeric literal. -/
def decParseCore (l : List Char) : Option Dec :=
  let sl : Int × List Char :=
    match l with
    | '+' :: r => (1, r)
    | '-' :: r => (-1, r)
    | _ => (1, l)
  let ip := takeDigits sl.2
  let fp : Nat × Nat × List Char :=
    match ip.2.2 with
    | '.' :: r => takeDigits r
    | _ => (0, 0, ip.2.2)
  if ip.2.1 + fp.2.1 = 0 then Option.none
  else
    let m : Int := sl.1 * ((ip.1 * 10 ^ fp.2.1 + fp.1 : Nat) : Int)
    match fp.2.2 with
    | [] => some ⟨m, -(fp.2.1 : Int)⟩
    | c :: r =>
      if c = 'e' ∨ c = 'E' then
        let es : Int × List Char :=
          match r with
          | '+' :: r2 => (1, r2)
          | '-' :: r2 => (-1, r2)
          | _ => (1, r)
        let ep := takeDigits es.2
        if ep.2.1 = 0 ∨ ep.2.2 ≠ [] then Option.none
        else some ⟨m, es.1 * (ep.1 : Int) - (fp.2.1 : Int)⟩
      else Option.none

/-- `Decimal(s)` for a string `s` (Decimal strips surrounding whitespace). -/
def decParse (s : String) : Except String Dec :=
  let l := (s.toList.dropWhile Char.isWhitespace).reverse.dropWhile Char.isWhitespace |>.reverse
  match decParseCore l with
  | some d => Except.ok d
  | Option.none => Except.error ("InvalidOperation: invalid decimal literal: " ++ s)

/-- `int(s)` for a string `s` (whitespace stripped; sign and digits only;
numeric-literal underscores are not modelled). -/
def intParse (s : String) : Except String Int :=
  let l := (s.toList.dropWhile Char.isWhitespace).reverse.dropWhile Char.isWhitespace |>.reverse
  let sl : Int × List Char :=
    match l with
    | '+' :: r => (1, r)
    | '-' :: r => (-1, r)
    | _ => (1, l)
  let dp := takeDigits sl.2
  if dp.2.1 = 0 ∨ dp.2.2 ≠ [] then
    Except.error ("ValueError: invalid literal for int with base 10: " ++ s)
  else Except.ok (sl.1 * (dp.1 : Int))

/-- `Decimal(str(v))` (source lines 113 and 148). -/
def decOfPy : PyVal → Except String Dec
  | .float x => Except.ok (decOfDbl x)
  | .int n => Except.ok ⟨n, 0⟩
  | .str s => decParse s
  | .bool _ => Except.error "InvalidOperation: invalid decimal literal"
  | .none => Except.error "InvalidOperation: invalid decimal literal"

/-- `int(v)` (source lines 115 and 152). -/
def intOfPy : PyVal → Except String Int
  | .int n => Except.ok n
  | .bool b => Except.ok (if b then 1 else 0)
  | .float x => Except.ok (dblTrunc x)
  | .str s => intParse s
  | .none => Except.error "TypeError: int argument must not be None"


/-! ## JSON output documents -/

/-- The JSON document produced by `json.dumps(..., cls=DecimalEncoder)`.
Object fields keep insertion order. A `num` literal carries the exact decimal
value of the printed digits. -/
inductive Json where
  | str (s : String)
  | num (d : Dec)
  | bool (b : Bool)
  | null
  | arr (xs : List Json)
  | obj (fields : List (String × Json))

/-- Field lookup in a serialized JSON object. -/
def jsonField (j : Json) (k : String) : Option Json :=
  match j with
  | .obj fs => (fs.find? (fun kv => kv.1 == k)).map (·.2)
  | _ => Option.none

/-! ## Items and the store -/

/-- A stored item. Timestamps are abstract clock readings; `price` is the
`Decimal` stored by the source, `quantity` the `int`. Optional fields are
absent (`none`) rather than null, exactly as in the source. -/
structure Item where
  id : String
  name : PyVal
  description : PyVal
  created_at : Nat
  updated_at : Nat
  price : Option Dec := Option.none
  quantity : Option Int := Option.none
deriving Repr, DecidableEq

/-- `datetime.isoformat()` of an abstract clock value. -/
def isoformat (t : Nat) : String := toString t

/-- `json.dumps` of a stored item under `DecimalEncoder`: a `Decimal` is
passed through `float(...)` (`dblOfDec`) and printed with `repr`
(`decOfDbl`); an `int` prints exactly. Field order is insertion order from
`create_item` (source lines 103-115). -/
def dumpsPy : PyVal → Json
  | .str s => .str s
  | .int n => .num ⟨n, 0⟩
  | .float x => .num (decOfDbl x)
  | .bool b => .bool b
  | .none => .null

def dumpsItem (it : Item) : Json :=
  .obj ([("id", .str it.id), ("name", dumpsPy it.name),
         ("description", dumpsPy it.description),
         ("created_at", .str (isoformat it.created_at)),
         ("updated_at", .str (isoformat it.updated_at))]
    ++ (match it.price with
        | some p => [("price", .num (decOfDbl (dblOfDec p)))]
        | Option.none => [])
    ++ (match it.quantity with
        | some n => [("quantity", .num (⟨n, 0⟩ : Dec))]
        | Option.none => []))

/-- The DynamoDB table, keyed by `Item.id`. -/
abbrev Store := List Item

/-- `table.get_item(Key={'id': k})`. -/
def storeGet (s : Store) (k : String) : Option Item :=
  s.find? (fun it => it.id == k)

/-- `table.put_item(Item=it)` / the write of `table.update_item`: replace the
item with the same key, or append. -/
def storePut (s : Store) (it : Item) : Store :=
  if s.any (fun o => o.id == it.id) then
    s.map (fun o => if o.id == it.id then it else o)
  else s ++ [it]

/-- `table.delete_item(Key={'id': k})`. -/
def storeDelete (s : Store) (k : String) : Store :=
  s.filter (fun it => !(it.id == k))

/-! ## Response envelope -/

/-- The uniform response envelope (`statusCode`, `body`, `headers`). -/
structure LambdaResponse where
  statusCode : Nat
  body : Json
  headers : List (String × String)

/-- `success_response` (source lines 180-188). -/
def success_response (status_code : Nat) (body : Json) : LambdaResponse :=
  ⟨status_code, body, [("Content-Type", "application/json")]⟩

/-- `error_response` (source lines 190-198). -/
def error_response (status_code : Nat) (message : String) : LambdaResponse :=
  ⟨status_code, .obj [("error", .str message)], [("Content-Type", "application/json")]⟩

/-! ## The five operations -/

/-- `get_all_items` (source lines 73-83): scan, wrap in `{items, count}`. -/
def get_all_items (s : Store) : LambdaResponse :=
  success_response 200 (.obj [("items", .arr (s.map dumpsItem)),
                              ("count", .num (⟨(s.length : Int), 0⟩ : Dec))])

/-- `get_item` (source lines 85-93). -/
def get_item (s : Store) (item_id : String) : LambdaResponse :=
  match storeGet s item_id with
  | Option.none => error_response 404 "Item not found"
  | some it => success_response 200 (dumpsItem it)

/-- The `if 'price' in body:` step shared by create (lines 112-113) and
update (lines 146-148): coerce `body['price']` with `Decimal(str(...))`,
propagating the exception. -/
def withPrice (it : Item) (body : Body) : Except String Item :=
  match dictGet body "price" with
  | Option.none => Except.ok it
  | some v =>
    match decOfPy v with
    | Except.ok d => Except.ok { it with price := some d }
    | Except.error e => Except.error e

/-- The `if 'quantity' in body:` step shared by create (lines 114-115) and
update (lines 150-152): coerce `body['quantity']` with `int(...)`. -/
def withQuantity (it : Item) (body : Body) : Except String Item :=
  match dictGet body "quantity" with
  | Option.none => Except.ok it
  | some v =>
    match intOfPy v with
    | Except.ok n => Except.ok { it with quantity := some n }
    | Except.error e => Except.error e

/-- The item built by `create_item` (source lines 102-115): required fields
copied verbatim, `created_at` from the first clock read, `updated_at` from
the second, then the optional coercions in source order. -/
def builtItem (body : Body) (gen_id : String) (t1 t2 : Nat) : Except String Item :=
  match withPrice
      { id := gen_id,
        name := (dictGet body "name").getD PyVal.none,
        description := (dictGet body "description").getD PyVal.none,
        created_at := t1, updated_at := t2 } body with
  | Except.error e => Except.error e
  | Except.ok it1 => withQuantity it1 body

/-- `create_item` (source lines 95-120). The `getD PyVal.none` defaults in
`builtItem` are unreachable: the guard has established both keys present. -/
def create_item (s : Store) (body : Body) (gen_id : String) (t1 t2 : Nat) :
    LambdaResponse × Store :=
  if (dictGet body "name").isNone || (dictGet body "description").isNone then
    (error_response 400 "Missing required fields: name, description", s)
  else
    match builtItem body gen_id t1 t2 with
    | Except.error e => (error_response 500 ("Failed to create item: " ++ e), s)
    | Except.ok item => (success_response 201 (dumpsItem item), storePut s item)

/-- The name/description part of `update_item`'s update expression (source
lines 131-144): `updated_at` always set, then `name` and `description` when
present in the body. -/
def updateBase (old : Item) (body : Body) (t : Nat) : Item :=
  match dictGet body "description" with
  | some v =>
    { (match dictGet body "name" with
       | some w => { old with updated_at := t, name := w }
       | Option.none => { old with updated_at := t }) with description := v }
  | Option.none =>
    match dictGet body "name" with
    | some w => { old with updated_at := t, name := w }
    | Option.none => { old with updated_at := t }

/-- The item produced by `update_item`'s update expression (source lines
130-161): the name/description part, then the `price`/`quantity` coercions
(source lines 146-152), whose failures propagate as exceptions. `ALL_NEW`
returns this item. -/
def updatedItem (old : Item) (body : Body) (t : Nat) : Except String Item :=
  match withPrice (updateBase old body t) body with
  | Except.error e => Except.error e
  | Except.ok it4 => withQuantity it4 body

/-- The client-side validation failure raised by `table.update_item` when it
receives `ExpressionAttributeNames=None`. -/
def paramValidationError : String :=
  "ParamValidationError: Invalid type for parameter ExpressionAttributeNames, value: None, valid types: dict"

/-- `update_item` (source lines 122-165): existence check, then build and
apply the update expression; coercion failures are caught before any write.
Line 159 passes `ExpressionAttributeNames=attr_names if attr_names else
None`: `attr_names` is populated only for `name`/`description` (lines
136-144), so when the body contains neither, the call receives `None`,
which the client library's parameter validation deterministically rejects
before any network I/O — the request then fails with 500 and no write. -/
def update_item (s : Store) (item_id : String) (body : Body) (t : Nat) :
    LambdaResponse × Store :=
  match storeGet s item_id with
  | Option.none => (error_response 404 "Item not found", s)
  | some old =>
    match updatedItem old body t with
    | Except.error e => (error_response 500 ("Failed to update item: " ++ e), s)
    | Except.ok newIt =>
      if (dictGet body "name").isNone && (dictGet body "description").isNone then
        (error_response 500 ("Failed to update item: " ++ paramValidationError), s)
      else (success_response 200 (dumpsItem newIt), storePut s newIt)

/-- `delete_item` (source lines 167-178): existence check, then delete. -/
def delete_item (s : Store) (item_id : String) : LambdaResponse × Store :=
  match storeGet s item_id with
  | Option.none => (error_response 404 "Item not found", s)
  | some _ =>
    (success_response 200 (.obj [("message",
       .str ("Item " ++ item_id ++ " deleted successfully"))]),
     storeDelete s item_id)

/-! ## Path handling -/

/-- Python `str.split(c)` on a character list: `"" → [""]`, empty segments
kept between consecutive separators. -/
def splitCh (c : Char) : List Char → List (List Char)
  | [] => [[]]
  | x :: xs =>
    if x = c then [] :: splitCh c xs
    else
      match splitCh c xs with
      | [] => [[x]]
      | y :: ys => (x :: y) :: ys

/-- Python `str.strip('/')`: drop the separator from both ends. -/
def stripEnds (c : Char) (l : List Char) : List Char :=
  ((l.dropWhile (· == c)).reverse.dropWhile (· == c)).reverse

/-- The stage names the handler strips (source line 31). -/
def stageNames : List String := ["dev", "staging", "prod"]

/-- Drop the stage segment if the first segment is a stage name
(source lines 30-32). -/
def dropStage (parts : List (List Char)) : List (List Char) :=
  match parts with
  | s0 :: rest => if stageNames.contains (String.mk s0) then rest else parts
  | [] => parts

/-- Join segments into a path: `'/' + '/'.join(parts) if path_parts else '/'`
(source line 34). -/
def joinPath (parts : List (List Char)) : String :=
  if parts.isEmpty then "/" else String.mk ('/' :: List.intercalate ['/'] parts)

/-- Path normalization of `lambda_handler` (source lines 27-34). -/
def normalizePath (raw : String) : String :=
  joinPath (dropStage (splitCh '/' (stripEnds '/' raw.toList)))

/-- `path.split('/')[-1]` (source lines 50, 55, 61): the item id. -/
def lastSegment (p : String) : String :=
  String.mk ((splitCh '/' p.toList).getLastD [])

/-! ## Events and the dispatcher -/

/-- An inbound request as delivered by the Lambda runtime: the HTTP method
(`event['requestContext']['http']['method']`), the raw path
(`event['rawPath']`) and the body. `body = none` models a missing `body`
key (`event.get('body', '{}')` then parses `"{}"` to the empty dict);
`some (.error m)` a body `json.loads` rejects; `some (.ok d)` a body parsing
to the dictionary `d`. -/
structure Event where
  method : String
  rawPath : String
  body : Option (Except String Body)

/-- `json.loads(event.get('body', '{}'))`: the one step inside the
dispatcher's `try` that can raise. -/
def loadBody (ev : Event) : Except String Body :=
  match ev.body with
  | Option.none => Except.ok []
  | some r => r

/-- The body of `lambda_handler`'s `try` block (source lines 38-65): route on
method and normalized path; a raised exception surfaces as `.error`. -/
def lambda_handler_try (ev : Event) (s : Store) (gen_id : String) (t1 t2 : Nat) :
    Except String (LambdaResponse × Store) :=
  let path := normalizePath ev.rawPath
  if ev.method == "GET" && path == "/items" then
    Except.ok (get_all_items s, s)
  else if ev.method == "POST" && path == "/items" then
    match loadBody ev with
    | Except.error e => Except.error e
    | Except.ok body => Except.ok (create_item s body gen_id t1 t2)
  else if ev.method == "GET" && path.startsWith "/items/" then
    Except.ok (get_item s (lastSegment path), s)
  else if ev.method == "PUT" && path.startsWith "/items/" then
    match loadBody ev with
    | Except.error e => Except.error e
    | Except.ok body => Except.ok (update_item s (lastSegment path) body t1)
  else if ev.method == "DELETE" && path.startsWith "/items/" then
    Except.ok (delete_item s (lastSegment path))
  else
    Except.ok (error_response 404
      ("Endpoint not found: " ++ ev.method ++ " " ++ path), s)

/-- `lambda_handler` (source lines 18-71): the outermost `except` converts
any exception escaping the `try` block into a 500 response. -/
def lambda_handler (ev : Event) (s : Store) (gen_id : String) (t1 t2 : Nat) :
    LambdaResponse × Store :=
  match lambda_handler_try ev s gen_id t1 t2 with
  | Except.ok r => r
  | Except.error e => (error_response 500 ("Internal server error: " ++ e), s)

/-! ## Spec-side routing (for the refinement claim C1)

These definitions follow the specification's words, not the source: split on
`/`, drop empty leading and trailing segments, drop a first segment naming a
known stage, reassemble with a leading `/` (empty remainder becomes `/`);
route per the five-row table, `{id}` being everything after the last `/`. -/

/-- Drop empty segments from both ends of the segment list (spec wording),
in contrast to the source's `strip('/')` before splitting. -/
def dropEmptyEnds (segs : List (List Char)) : List (List Char) :=
  ((segs.dropWhile List.isEmpty).reverse.dropWhile List.isEmpty).reverse

/-- Canonical path per the specification's words. -/
def specCanonicalPath (raw : String) : String :=
  joinPath (dropStage (dropEmptyEnds (splitCh '/' raw.toList)))

/-- The `{id}` of the spec's routing table: everything after the last `/`. -/
def specPathId (p : String) : String :=
  String.mk ((p.toList.reverse.takeWhile (fun x => !(x == '/'))).reverse)

/-- The spec's five-row routing table over the canonical path, with the
dispatcher's error conversion. -/
def specDispatch (ev : Event) (s : Store) (gen_id : String) (t1 t2 : Nat) :
    LambdaResponse × Store :=
  let path := specCanonicalPath ev.rawPath
  let routed : Except String (LambdaResponse × Store) :=
    if ev.method == "GET" && path == "/items" then
      Except.ok (get_all_items s, s)
    else if ev.method == "POST" && path == "/items" then
      match loadBody ev with
      | Except.error e => Except.error e
      | Except.ok body => Except.ok (create_item s body gen_id t1 t2)
    else if ev.method == "GET" && path.startsWith "/items/" then
      Except.ok (get_item s (specPathId path), s)
    else if ev.method == "PUT" && path.startsWith "/items/" then
      match loadBody ev with
      | Except.error e => Except.error e
      | Except.ok body => Except.ok (update_item s (specPathId path) body t1)
    else if ev.method == "DELETE" && path.startsWith "/items/" then
      Except.ok (delete_item s (specPathId path))
    else
      Except.ok (error_response 404
        ("Endpoint not found: " ++ ev.method ++ " " ++ path), s)
  match routed with
  | Except.ok r => r
  | Except.error e => (error_response 500 ("Internal server error: " ++ e), s)

/-! ## List lemmas relating `strip`-then-split to split-then-drop-ends -/

theorem splitCh_ne_nil (c : Char) (l : List Char) : splitCh c l ≠ [] := by
  cases l with
  | nil => simp [splitCh]
  | cons x xs =>
    by_cases h : x = c
    · simp [splitCh, h]
    · simp only [splitCh, if_neg h]
      cases hs : splitCh c xs <;> simp

theorem splitCh_cons_ne (c x : Char) (xs : List Char) (h : ¬ x = c) :
    splitCh c (x :: xs) = (x :: (splitCh c xs).headD []) :: (splitCh c xs).tail := by
  simp only [splitCh, if_neg h]
  cases hs : splitCh c xs with
  | nil => exact absurd hs (splitCh_ne_nil c xs)
  | cons y ys => simp

theorem dropWhile_isEmpty_splitCh (c : Char) (l : List Char)
    (h : l.dropWhile (· == c) ≠ []) :
    (splitCh c l).dropWhile List.isEmpty = splitCh c (l.dropWhile (· == c)) := by
  induction l with
  | nil => simp at h
  | cons x xs ih =>
    by_cases hx : x = c
    · have hdrop : (x :: xs).dropWhile (· == c) = xs.dropWhile (· == c) := by
        simp [List.dropWhile_cons, hx]
      rw [hdrop] at h ⊢
      have hsplit : splitCh c (x :: xs) = [] :: splitCh c xs := by
        simp [splitCh, hx]
      rw [hsplit, List.dropWhile_cons]
      simpa using ih h
    · have hdrop : (x :: xs).dropWhile (· == c) = x :: xs := by
        simp [List.dropWhile_cons, hx]
      rw [hdrop, splitCh_cons_ne c x xs hx, List.dropWhile_cons]
      simp [← splitCh_cons_ne c x xs hx]

theorem splitCh_eq_replicate_append (c : Char) (l : List Char) :
    splitCh c l =
      List.replicate (l.takeWhile (· == c)).length [] ++
        splitCh c (l.dropWhile (· == c)) := by
  induction l with
  | nil => simp
  | cons x xs ih =>
    by_cases hx : x = c
    · simp only [List.takeWhile_cons, List.dropWhile_cons, hx, beq_self_eq_true,
        if_pos, List.length_cons, List.replicate_succ, List.cons_append]
      simp only [splitCh, if_pos hx]
      exact congrArg (List.cons []) ih
    · have hbx : (x == c) = false := by simp [hx]
      simp [List.takeWhile_cons, List.dropWhile_cons, hbx]

theorem splitCh_append_sep (c : Char) (m : List Char) :
    splitCh c (m ++ [c]) = splitCh c m ++ [[]] := by
  induction m with
  | nil => simp [splitCh]
  | cons x xs ih =>
    by_cases hx : x = c
    · simp only [List.cons_append, splitCh, if_pos hx]
      exact congrArg (List.cons []) ih
    · simp only [List.cons_append, splitCh, if_neg hx]
      have ih' : splitCh c (xs.append [c]) = splitCh c xs ++ [[]] := ih
      rw [ih']
      cases hs : splitCh c xs with
      | nil => exact absurd hs (splitCh_ne_nil c xs)
      | cons y ys => simp

def snocLast (m : List (List Char)) (x : Char) : List (List Char) :=
  match m with
  | [] => [[x]]
  | [y] => [y ++ [x]]
  | y :: ys => y :: snocLast ys x

theorem splitCh_append_ne (c x : Char) (hx : ¬ x = c) (m : List Char) :
    splitCh c (m ++ [x]) = snocLast (splitCh c m) x := by
  induction m with
  | nil => simp [splitCh, if_neg hx, snocLast]
  | cons z zs ih =>
    by_cases hz : z = c
    · rw [List.cons_append]
      have h1 : splitCh c (z :: (zs ++ [x])) = [] :: splitCh c (zs ++ [x]) := by
        simp [splitCh, hz]
      have h2 : splitCh c (z :: zs) = [] :: splitCh c zs := by
        simp [splitCh, hz]
      rw [h1, h2, ih]
      cases hs : splitCh c zs with
      | nil => exact absurd hs (splitCh_ne_nil c zs)
      | cons y ys => simp [snocLast]
    · rw [List.cons_append, splitCh_cons_ne c z _ hz, splitCh_cons_ne c z zs hz, ih]
      cases hs : splitCh c zs with
      | nil => exact absurd hs (splitCh_ne_nil c zs)
      | cons y ys =>
        cases ys with
        | nil => simp [snocLast]
        | cons w ws => simp [snocLast]

theorem snocLast_append (m : List (List Char)) (y : List Char) (x : Char) :
    snocLast (m ++ [y]) x = m ++ [y ++ [x]] := by
  induction m with
  | nil => simp [snocLast]
  | cons z zs ih =>
    rw [List.cons_append]
    cases h : zs ++ [y] with
    | nil => simp at h
    | cons w ws =>
      have : snocLast (z :: w :: ws) x = z :: snocLast (w :: ws) x := rfl
      rw [this, ← h, ih, List.cons_append]

theorem splitCh_reverse (c : Char) (l : List Char) :
    splitCh c l.reverse = ((splitCh c l).map List.reverse).reverse := by
  induction l with
  | nil => simp [splitCh]
  | cons x xs ih =>
    rw [List.reverse_cons]
    by_cases hx : x = c
    · subst hx
      rw [splitCh_append_sep, ih]
      have hsp : splitCh x (x :: xs) = [] :: splitCh x xs := by simp [splitCh]
      rw [hsp]
      simp
    · rw [splitCh_append_ne c x hx, ih, splitCh_cons_ne c x xs hx]
      cases hs : splitCh c xs with
      | nil => exact absurd hs (splitCh_ne_nil c xs)
      | cons y ys => simp [hs, snocLast_append, List.reverse_cons]

theorem headD_splitCh (c : Char) (l : List Char) :
    (splitCh c l).headD [] = l.takeWhile (fun x => !(x == c)) := by
  induction l with
  | nil => simp [splitCh]
  | cons x xs ih =>
    by_cases hx : x = c
    · subst hx
      have hsp : splitCh x (x :: xs) = [] :: splitCh x xs := by simp [splitCh]
      simp [hsp, List.takeWhile_cons]
    · rw [splitCh_cons_ne c x xs hx]
      have hbx : (x == c) = false := by simp [hx]
      simp only [List.takeWhile_cons, hbx, Bool.not_false, if_true, List.headD_cons]
      simpa using ih

theorem dropWhile_head_false {α : Type} (p : α → Bool) (l : List α) (x : α) (xs : List α)
    (h : l.dropWhile p = x :: xs) : p x = false := by
  induction l with
  | nil => simp at h
  | cons y ys ih =>
    rw [List.dropWhile_cons] at h
    by_cases hy : p y = true
    · exact ih (by simpa [hy] using h)
    · have hy' : p y = false := by simpa using hy
      rw [if_neg (by simp [hy'])] at h
      cases h
      exact hy'

theorem isEmpty_reverse (l : List Char) : l.reverse.isEmpty = l.isEmpty := by
  cases l with
  | nil => rfl
  | cons x xs =>
    rw [List.reverse_cons]
    cases h : xs.reverse ++ [x] with
    | nil => simp at h
    | cons a as => rfl

theorem splitCh_reverse_comm (c : Char) (l : List Char) :
    (splitCh c l).reverse = (splitCh c l.reverse).map List.reverse := by
  have h := splitCh_reverse c l.reverse
  rw [List.reverse_reverse] at h
  rw [h, List.reverse_reverse]

theorem dropWhile_isEmpty_map_reverse (S : List (List Char)) :
    (S.map List.reverse).dropWhile List.isEmpty =
      (S.dropWhile List.isEmpty).map List.reverse := by
  induction S with
  | nil => rfl
  | cons y ys ih =>
    rw [List.map_cons, List.dropWhile_cons, List.dropWhile_cons, isEmpty_reverse]
    by_cases hy : y.isEmpty = true
    · rw [if_pos (by simp [hy]), if_pos (by simp [hy])]
      exact ih
    · have hy' : y.isEmpty = false := by simpa using hy
      rw [if_neg (by simp [hy']), if_neg (by simp [hy']), List.map_cons]

/-- The heart of claim C1: on a raw path containing at least one
non-separator character, the source's `strip('/')`-then-split agrees
segment-for-segment with the spec's split-then-drop-empty-ends. -/
theorem dropEmptyEnds_splitCh (c : Char) (l : List Char)
    (h : l.dropWhile (· == c) ≠ []) :
    (((splitCh c l).dropWhile List.isEmpty).reverse.dropWhile List.isEmpty).reverse =
      splitCh c (stripEnds c l) := by
  set m := l.dropWhile (· == c) with hm
  have hA : (splitCh c l).dropWhile List.isEmpty = splitCh c m :=
    dropWhile_isEmpty_splitCh c l h
  have hmne : m.reverse.dropWhile (· == c) ≠ [] := by
    intro hcon
    obtain ⟨a, t, hat⟩ : ∃ a t, m = a :: t := by
      cases hmc : m with
      | nil => exact absurd hmc h
      | cons a t => exact ⟨a, t, rfl⟩
    have ha : (a == c) = false := dropWhile_head_false _ l a t (hm ▸ hat)
    have hmem : a ∈ m.reverse := by simp [hat]
    have := (List.dropWhile_eq_nil_iff).1 hcon a hmem
    simp [ha] at this
  rw [hA, splitCh_reverse_comm, dropWhile_isEmpty_map_reverse,
    dropWhile_isEmpty_splitCh c m.reverse hmne]
  unfold stripEnds
  rw [← hm]
  exact (splitCh_reverse c (m.reverse.dropWhile (· == c))).symm

theorem specCanonicalPath_eq_normalizePath (raw : String) :
    specCanonicalPath raw = normalizePath raw := by
  unfold specCanonicalPath normalizePath
  by_cases h : raw.toList.dropWhile (· == '/') = []
  · have hstrip : stripEnds '/' raw.toList = [] := by
      unfold stripEnds
      rw [h]
      rfl
    have hrep := splitCh_eq_replicate_append '/' raw.toList
    rw [h] at hrep
    have hde : dropEmptyEnds (splitCh '/' raw.toList) = [] := by
      unfold dropEmptyEnds
      have hall : (splitCh '/' raw.toList).dropWhile List.isEmpty = [] := by
        rw [List.dropWhile_eq_nil_iff]
        intro x hx
        rw [hrep] at hx
        rcases List.mem_append.1 hx with h1 | h2
        · rw [List.eq_of_mem_replicate h1]; rfl
        · have : x = [] := by simpa [splitCh] using h2
          rw [this]; rfl
      rw [hall]
      rfl
    rw [hde, hstrip]
    rfl
  · have hmain := dropEmptyEnds_splitCh '/' raw.toList h
    unfold dropEmptyEnds
    rw [hmain]

theorem getLastD_eq_headD_reverse {α : Type} (l : List α) (d : α) :
    l.getLastD d = l.reverse.headD d := by
  induction l generalizing d with
  | nil => rfl
  | cons x xs ih =>
    rw [List.getLastD_cons, List.reverse_cons, ih x]
    cases hxs : xs.reverse with
    | nil => rfl
    | cons a as => rfl

theorem lastSegment_eq_specPathId (p : String) : lastSegment p = specPathId p := by
  unfold lastSegment specPathId
  congr 1
  rw [getLastD_eq_headD_reverse, splitCh_reverse_comm]
  have hmap : ∀ (S : List (List Char)), (S.map List.reverse).headD [] = (S.headD []).reverse := by
    intro S
    cases S with
    | nil => rfl
    | cons y ys => rfl
  rw [hmap, headD_splitCh]

theorem specDispatch_eq_lambda_handler (ev : Event) (s : Store) (gen_id : String)
    (t1 t2 : Nat) :
    specDispatch ev s gen_id t1 t2 = lambda_handler ev s gen_id t1 t2 := by
  simp only [specDispatch, lambda_handler, lambda_handler_try,
    specCanonicalPath_eq_normalizePath, ← lastSegment_eq_specPathId]

/-! ## Store lemmas -/

theorem storeGet_storeDelete_self (s : Store) (k : String) :
    storeGet (storeDelete s k) k = Option.none := by
  unfold storeGet storeDelete
  rw [List.find?_eq_none]
  intro x hx
  have hq := (List.mem_filter.1 hx).2
  simp only [Bool.not_eq_true'] at hq
  simp [hq]

theorem storeGet_storeDelete_ne (s : Store) (k kd : String) (h : ¬ k = kd) :
    storeGet (storeDelete s kd) k = storeGet s k := by
  unfold storeGet storeDelete
  induction s with
  | nil => rfl
  | cons it rest ih =>
    rw [List.filter_cons]
    by_cases hid : it.id = kd
    · have h1 : (!(it.id == kd)) = false := by simp [hid]
      have h2 : (it.id == k) = false := by
        rw [hid]
        exact beq_eq_false_iff_ne.2 (fun hc => h hc.symm)
      rw [h1, if_neg (by simp)]
      rw [List.find?_cons, h2]
      exact ih
    · have h1 : (!(it.id == kd)) = true := by simp [hid]
      rw [h1, if_pos rfl]
      rw [List.find?_cons, List.find?_cons]
      cases hk : (it.id == k) with
      | true => rfl
      | false => exact ih

theorem mem_storePut (s : Store) (it x : Item) (h : x ∈ storePut s it) :
    x = it ∨ x ∈ s := by
  unfold storePut at h
  by_cases hc : s.any (fun o => o.id == it.id)
  · rw [if_pos hc] at h
    rcases List.mem_map.1 h with ⟨o, ho, heq⟩
    by_cases ho2 : (o.id == it.id) = true
    · rw [ho2, if_pos rfl] at heq
      left
      exact heq.symm
    · rw [if_neg (by simpa using ho2)] at heq
      right
      rw [← heq]
      exact ho
  · rw [if_neg hc] at h
    rcases List.mem_append.1 h with h1 | h2
    · right
      exact h1
    · left
      simpa using h2

/-! ## Claim theorems -/

/-- A sample stored item used by the concrete witnesses below. -/
def itemA : Item :=
  { id := "a1", name := PyVal.str "Widget", description := PyVal.str "A widget",
    created_at := 3, updated_at := 4, price := some ⟨1999, -2⟩, quantity := some 7 }

/-- C5: an update naming an id absent from the store returns 404 with message
"Item not found" and leaves the store exactly as it was. -/
theorem c5_update_absent (s : Store) (item_id : String) (body : Body) (t : Nat)
    (h : storeGet s item_id = Option.none) :
    update_item s item_id body t = (error_response 404 "Item not found", s) := by
  unfold update_item
  rw [h]

theorem c5_witness :
    storeGet [itemA] "zz" = Option.none ∧
    update_item [itemA] "zz" [] 9 = (error_response 404 "Item not found", [itemA]) :=
  ⟨rfl, c5_update_absent [itemA] "zz" [] 9 rfl⟩

/-- C6: delete checks existence first: an absent id yields 404 "Item not
found" with the store unchanged; a present id yields 200 with a message
embedding the id, removes exactly that item (other keys unaffected), and a
second delete of the same id then yields 404. -/
theorem c6_delete :
    (∀ s item_id, storeGet s item_id = Option.none →
      delete_item s item_id = (error_response 404 "Item not found", s)) ∧
    (∀ s item_id it, storeGet s item_id = some it →
      (delete_item s item_id).1 =
        success_response 200
          (.obj [("message", .str ("Item " ++ item_id ++ " deleted successfully"))]) ∧
      (delete_item s item_id).2 = storeDelete s item_id ∧
      storeGet (delete_item s item_id).2 item_id = Option.none ∧
      (∀ k, ¬ k = item_id → storeGet (delete_item s item_id).2 k = storeGet s k)) ∧
    (∀ s item_id it, storeGet s item_id = some it →
      (delete_item s item_id).1.statusCode = 200 ∧
      (delete_item (delete_item s item_id).2 item_id).1.statusCode = 404) := by
  refine ⟨?_, ?_, ?_⟩
  · intro s item_id h
    unfold delete_item
    rw [h]
  · intro s item_id it h
    unfold delete_item
    rw [h]
    refine ⟨rfl, rfl, storeGet_storeDelete_self s item_id, ?_⟩
    intro k hk
    exact storeGet_storeDelete_ne s k item_id hk
  · intro s item_id it h
    constructor
    · unfold delete_item
      rw [h]
      rfl
    · unfold delete_item
      rw [h]
      have h2 : storeGet (storeDelete s item_id) item_id = Option.none :=
        storeGet_storeDelete_self s item_id
      simp only [h2]
      rfl

theorem c6_witness :
    storeGet [itemA] "a1" = some itemA ∧
    (delete_item [itemA] "a1").1.statusCode = 200 ∧
    (delete_item (delete_item [itemA] "a1").2 "a1").1.statusCode = 404 :=
  ⟨rfl, (c6_delete.2.2 [itemA] "a1" itemA rfl).1, (c6_delete.2.2 [itemA] "a1" itemA rfl).2⟩

/-- C3: a create request (POST to a path normalizing to /items) whose body
lacks name or description yields status 400 with a message listing the
required fields, and the store is returned unchanged (no write occurs). -/
theorem c3_create_missing_field (ev : Event) (s : Store) (gen_id : String) (t1 t2 : Nat)
    (body : Body)
    (hm : ev.method = "POST") (hp : normalizePath ev.rawPath = "/items")
    (hb : ev.body = some (Except.ok body))
    (hmiss : dictGet body "name" = Option.none ∨ dictGet body "description" = Option.none) :
    lambda_handler ev s gen_id t1 t2 =
      (error_response 400 "Missing required fields: name, description", s) := by
  unfold lambda_handler lambda_handler_try loadBody
  rw [hm, hp, hb]
  show create_item s body gen_id t1 t2 = _
  unfold create_item
  rcases hmiss with h | h
  · rw [h]
    simp
  · rw [h]
    simp

theorem c3_witness :
    lambda_handler ⟨"POST", "/dev/items", some (Except.ok [("description", PyVal.str "x")])⟩
        [itemA] "g" 0 0 =
      (error_response 400 "Missing required fields: name, description", [itemA]) :=
  c3_create_missing_field _ [itemA] "g" 0 0 [("description", PyVal.str "x")]
    rfl rfl rfl (Or.inl rfl)

/-- C10 (code bug): an update of an existing item whose body is empty or
contains only unrecognized fields does not succeed: the update expression is
just `SET updated_at`, but `attr_names` is empty, so line 159 passes
`ExpressionAttributeNames=None` and the client library rejects the call —
the handler returns 500 ("Failed to update item: ParamValidationError ...")
with the store unchanged, contradicting the claimed (and spec-intended)
200-with-refreshed-updated_at behavior. -/
theorem c10_update_empty_500 :
    (update_item [itemA] "a1" [] 9).1 =
      error_response 500 ("Failed to update item: " ++ paramValidationError) ∧
    (update_item [itemA] "a1" [] 9).2 = [itemA] ∧
    (update_item [itemA] "a1" [("color", PyVal.str "red")] 11).1.statusCode = 500 ∧
    (update_item [itemA] "a1" [("color", PyVal.str "red")] 11).2 = [itemA] :=
  ⟨rfl, rfl, rfl, rfl⟩

/-! ## Characterizations of the built and updated items -/

/-- The item `update_item` writes when every present coercion succeeds. -/
def resolvedUpdate (old : Item) (body : Body) (t : Nat) : Item :=
  { old with
    updated_at := t,
    name := match dictGet body "name" with
            | some v => v
            | Option.none => old.name,
    description := match dictGet body "description" with
            | some v => v
            | Option.none => old.description,
    price := match dictGet body "price" with
            | some v => (decOfPy v).toOption
            | Option.none => old.price,
    quantity := match dictGet body "quantity" with
            | some v => (intOfPy v).toOption
            | Option.none => old.quantity }

theorem updatedItem_resolved (old : Item) (body : Body) (t : Nat)
    (hp : ∀ v, dictGet body "price" = some v → ∃ d, decOfPy v = Except.ok d)
    (hq : ∀ v, dictGet body "quantity" = some v → ∃ n, intOfPy v = Except.ok n) :
    updatedItem old body t = Except.ok (resolvedUpdate old body t) := by
  unfold updatedItem updateBase withPrice withQuantity resolvedUpdate
  cases hpr : dictGet body "price" with
  | none =>
    cases hqt : dictGet body "quantity" with
    | none =>
      cases dictGet body "name" <;> cases dictGet body "description" <;> rfl
    | some w =>
      obtain ⟨n, hn⟩ := hq w hqt
      cases dictGet body "name" <;> cases dictGet body "description" <;> simp [hn, Except.toOption]
  | some v =>
    obtain ⟨d, hd⟩ := hp v hpr
    cases hqt : dictGet body "quantity" with
    | none =>
      cases dictGet body "name" <;> cases dictGet body "description" <;> simp [hd, Except.toOption]
    | some w =>
      obtain ⟨n, hn⟩ := hq w hqt
      cases dictGet body "name" <;> cases dictGet body "description" <;>
        simp [hd, hn, Except.toOption]

theorem updatedItem_congr (old : Item) (t : Nat) (b1 b2 : Body)
    (hn : dictGet b1 "name" = dictGet b2 "name")
    (hd : dictGet b1 "description" = dictGet b2 "description")
    (hp : dictGet b1 "price" = dictGet b2 "price")
    (hq : dictGet b1 "quantity" = dictGet b2 "quantity") :
    updatedItem old b1 t = updatedItem old b2 t := by
  unfold updatedItem updateBase withPrice withQuantity
  rw [hn, hd, hp, hq]

/-- The item `create_item` stores when every present coercion succeeds. -/
def resolvedCreate (body : Body) (gen_id : String) (t1 t2 : Nat) : Item :=
  { id := gen_id,
    name := (dictGet body "name").getD PyVal.none,
    description := (dictGet body "description").getD PyVal.none,
    created_at := t1, updated_at := t2,
    price := match dictGet body "price" with
            | some v => (decOfPy v).toOption
            | Option.none => Option.none,
    quantity := match dictGet body "quantity" with
            | some v => (intOfPy v).toOption
            | Option.none => Option.none }

theorem builtItem_resolved (body : Body) (gen_id : String) (t1 t2 : Nat)
    (hp : ∀ v, dictGet body "price" = some v → ∃ d, decOfPy v = Except.ok d)
    (hq : ∀ v, dictGet body "quantity" = some v → ∃ n, intOfPy v = Except.ok n) :
    builtItem body gen_id t1 t2 = Except.ok (resolvedCreate body gen_id t1 t2) := by
  unfold builtItem withPrice withQuantity resolvedCreate
  cases hpr : dictGet body "price" with
  | none =>
    cases hqt : dictGet body "quantity" with
    | none => rfl
    | some w =>
      obtain ⟨n, hn⟩ := hq w hqt
      simp [hn, Except.toOption]
  | some v =>
    obtain ⟨d, hd⟩ := hp v hpr
    cases hqt : dictGet body "quantity" with
    | none => simp [hd, Except.toOption]
    | some w =>
      obtain ⟨n, hn⟩ := hq w hqt
      simp [hd, hn, Except.toOption]

/-- C4 (amended): an update of an existing item whose body contains `name`
or `description` and whose present price/quantity values coerce
successfully modifies only the recognized fields present in the body; id
and created_at never change (even if present in the body); unrecognized
fields are ignored (the result depends only on the four recognized
lookups); updated_at is set to the update-time clock read; and the response
is 200 with the complete post-update item. A body with neither `name` nor
`description` — in particular one containing only `price` — instead makes
line 159 pass `ExpressionAttributeNames=None`, so the request fails with
500 and no write. -/
theorem c4_update_recognized :
    (∀ s item_id body t old, storeGet s item_id = some old →
      ((dictGet body "name").isSome ∨ (dictGet body "description").isSome) →
      (∀ v, dictGet body "price" = some v → ∃ d, decOfPy v = Except.ok d) →
      (∀ v, dictGet body "quantity" = some v → ∃ n, intOfPy v = Except.ok n) →
      ∃ newIt, updatedItem old body t = Except.ok newIt ∧
        update_item s item_id body t =
          (success_response 200 (dumpsItem newIt), storePut s newIt) ∧
        newIt.id = old.id ∧ newIt.created_at = old.created_at ∧ newIt.updated_at = t ∧
        (dictGet body "name" = Option.none → newIt.name = old.name) ∧
        (∀ v, dictGet body "name" = some v → newIt.name = v) ∧
        (dictGet body "description" = Option.none → newIt.description = old.description) ∧
        (∀ v, dictGet body "description" = some v → newIt.description = v) ∧
        (dictGet body "price" = Option.none → newIt.price = old.price) ∧
        (∀ v d, dictGet body "price" = some v → decOfPy v = Except.ok d →
          newIt.price = some d) ∧
        (dictGet body "quantity" = Option.none → newIt.quantity = old.quantity) ∧
        (∀ v n, dictGet body "quantity" = some v → intOfPy v = Except.ok n →
          newIt.quantity = some n) ∧
        (∀ body2, dictGet body2 "name" = dictGet body "name" →
          dictGet body2 "description" = dictGet body "description" →
          dictGet body2 "price" = dictGet body "price" →
          dictGet body2 "quantity" = dictGet body "quantity" →
          updatedItem old body2 t = updatedItem old body t)) ∧
    (∀ s item_id t old v, storeGet s item_id = some old →
      (update_item s item_id [("price", v)] t).1.statusCode = 500 ∧
      (update_item s item_id [("price", v)] t).2 = s) := by
  constructor
  · intro s item_id body t old hold hnd hp hq
    have hres := updatedItem_resolved old body t hp hq
    have hcond : ¬ (((dictGet body "name").isNone &&
        (dictGet body "description").isNone) = true) := by
      rcases hnd with h | h
      · obtain ⟨v, hv⟩ := Option.isSome_iff_exists.1 h
        simp [hv]
      · obtain ⟨v, hv⟩ := Option.isSome_iff_exists.1 h
        simp [hv]
    refine ⟨resolvedUpdate old body t, hres, ?_, ?_, ?_, ?_, ?_, ?_, ?_, ?_, ?_, ?_, ?_, ?_, ?_⟩
    · unfold update_item
      rw [hold]
      simp only [hres]
      rw [if_neg hcond]
    · simp [resolvedUpdate]
    · simp [resolvedUpdate]
    · simp [resolvedUpdate]
    · intro h
      simp [resolvedUpdate, h]
    · intro v h
      simp [resolvedUpdate, h]
    · intro h
      simp [resolvedUpdate, h]
    · intro v h
      simp [resolvedUpdate, h]
    · intro h
      simp [resolvedUpdate, h]
    · intro v d h hd
      simp [resolvedUpdate, h, hd, Except.toOption]
    · intro h
      simp [resolvedUpdate, h]
    · intro v n h hn
      simp [resolvedUpdate, h, hn, Except.toOption]
    · intro body2 h1 h2 h3 h4
      exact updatedItem_congr old t body2 body h1 h2 h3 h4
  · intro s item_id t old v hold
    unfold update_item
    rw [hold]
    cases hu : updatedItem old [("price", v)] t with
    | error e =>
      simp only [hu]
      constructor <;> trivial
    | ok newIt =>
      simp only [hu]
      rw [if_pos (show ((dictGet [("price", v)] "name").isNone &&
        (dictGet [("price", v)] "description").isNone) = true from rfl)]
      exact ⟨rfl, rfl⟩

/-- C4 counterexample: the claim as stated fails on the code. The update of
an existing item whose body carries a `price` that `Decimal(str(...))`
cannot coerce (here JSON `null`) yields 500, not 200, writing nothing; and
even a perfectly coercible price-only update yields 500 with no write,
because the body carries neither `name` nor `description`, so line 159
passes `ExpressionAttributeNames=None` and the client library rejects the
call. -/
theorem c4_counterexample :
    (update_item [itemA] "a1" [("price", PyVal.none)] 9).1.statusCode = 500 ∧
    (update_item [itemA] "a1" [("price", PyVal.none)] 9).2 = [itemA] ∧
    (update_item [itemA] "a1" [("price", PyVal.int 5)] 9).1 =
      error_response 500 ("Failed to update item: " ++ paramValidationError) ∧
    (update_item [itemA] "a1" [("price", PyVal.int 5)] 9).2 = [itemA] :=
  ⟨rfl, rfl, rfl, rfl⟩

theorem c4_witness :
    storeGet [itemA] "a1" = some itemA ∧
    (∃ newIt, updatedItem itemA [("name", PyVal.str "n2"),
        ("price", PyVal.float (dblOfDec ⟨25, -1⟩))] 9 = Except.ok newIt ∧
      update_item [itemA] "a1" [("name", PyVal.str "n2"),
          ("price", PyVal.float (dblOfDec ⟨25, -1⟩))] 9 =
        (success_response 200 (dumpsItem newIt), storePut [itemA] newIt) ∧
      newIt.id = itemA.id ∧ newIt.created_at = itemA.created_at ∧ newIt.updated_at = 9) ∧
    (update_item [itemA] "a1" [("price", PyVal.int 5)] 9).1.statusCode = 500 := by
  refine ⟨rfl, ?_, (c4_update_recognized.2 [itemA] "a1" 9 itemA (PyVal.int 5) rfl).1⟩
  obtain ⟨newIt, h1, h2, h3, h4, h5, -⟩ :=
    (c4_update_recognized.1 [itemA] "a1" [("name", PyVal.str "n2"),
        ("price", PyVal.float (dblOfDec ⟨25, -1⟩))] 9 itemA rfl
      (Or.inl rfl)
      (fun v hv => ⟨decOfDbl (dblOfDec ⟨25, -1⟩), by cases hv; rfl⟩)
      (fun v hv => by cases hv))
  exact ⟨newIt, h1, h2, h3, h4, h5⟩

/-- C2 (amended): a create whose body has both name and description, whose
present price/quantity values coerce successfully, and during which the two
clock reads coincide, returns 201 with the full stored item: id is the
freshly generated identifier, name/description copied verbatim, price and
quantity included exactly when present, and created_at = updated_at (set
from the first and second clock reads respectively). -/
theorem c2_create_valid (s : Store) (body : Body) (gen_id : String) (t1 t2 : Nat)
    (hname : (dictGet body "name").isSome)
    (hdesc : (dictGet body "description").isSome)
    (hp : ∀ v, dictGet body "price" = some v → ∃ d, decOfPy v = Except.ok d)
    (hq : ∀ v, dictGet body "quantity" = some v → ∃ n, intOfPy v = Except.ok n)
    (ht : t1 = t2) :
    ∃ it, builtItem body gen_id t1 t2 = Except.ok it ∧
      create_item s body gen_id t1 t2 = (success_response 201 (dumpsItem it), storePut s it) ∧
      it.id = gen_id ∧
      (∀ v, dictGet body "name" = some v → it.name = v) ∧
      (∀ v, dictGet body "description" = some v → it.description = v) ∧
      it.created_at = t1 ∧ it.updated_at = t2 ∧ it.created_at = it.updated_at ∧
      (dictGet body "price" = Option.none → it.price = Option.none) ∧
      (∀ v d, dictGet body "price" = some v → decOfPy v = Except.ok d → it.price = some d) ∧
      (dictGet body "quantity" = Option.none → it.quantity = Option.none) ∧
      (∀ v n, dictGet body "quantity" = some v → intOfPy v = Except.ok n →
        it.quantity = some n) := by
  have hres := builtItem_resolved body gen_id t1 t2 hp hq
  refine ⟨resolvedCreate body gen_id t1 t2, hres, ?_, ?_, ?_, ?_, ?_, ?_, ?_, ?_, ?_, ?_, ?_⟩
  · unfold create_item
    obtain ⟨vn, hvn⟩ := Option.isSome_iff_exists.1 hname
    obtain ⟨vd, hvd⟩ := Option.isSome_iff_exists.1 hdesc
    rw [hvn, hvd]
    simp only [Option.isNone_some, Bool.or_self, Bool.false_eq_true, if_false, hres]
  · simp [resolvedCreate]
  · intro v h
    simp [resolvedCreate, h]
  · intro v h
    simp [resolvedCreate, h]
  · simp [resolvedCreate]
  · simp [resolvedCreate]
  · simp [resolvedCreate, ht]
  · intro h
    simp [resolvedCreate, h]
  · intro v d h hd
    simp [resolvedCreate, h, hd, Except.toOption]
  · intro h
    simp [resolvedCreate, h]
  · intro v n h hn
    simp [resolvedCreate, h, hn, Except.toOption]

/-- C2 counterexample: the claim as stated fails on the code in two ways.
With name and description present but a price that does not coerce (JSON
`null`), the response is 500, not 201. And because the source reads the
clock separately for created_at (line 107) and updated_at (line 108), a
clock that advances between the two reads yields created_at ≠ updated_at. -/
theorem c2_counterexample :
    (create_item []
        [("name", PyVal.str "n"), ("description", PyVal.str "d"), ("price", PyVal.none)]
        "gid" 0 0).1.statusCode = 500 ∧
    ((create_item [] [("name", PyVal.str "n"), ("description", PyVal.str "d")]
        "gid" 0 1).2.map (fun it => (it.created_at, it.updated_at))) = [(0, 1)] := by
  constructor <;> rfl

theorem c2_witness :
    ∃ it, builtItem [("name", PyVal.str "n"), ("description", PyVal.str "d"),
        ("quantity", PyVal.int 3)] "gid" 7 7 = Except.ok it ∧
      create_item [] [("name", PyVal.str "n"), ("description", PyVal.str "d"),
          ("quantity", PyVal.int 3)] "gid" 7 7 =
        (success_response 201 (dumpsItem it), storePut [] it) ∧
      it.id = "gid" ∧ it.created_at = it.updated_at ∧ it.quantity = some 3 := by
  obtain ⟨it, h1, h2, h3, -, -, -, -, h8, -, -, -, h12⟩ :=
    c2_create_valid [] [("name", PyVal.str "n"), ("description", PyVal.str "d"),
        ("quantity", PyVal.int 3)] "gid" 7 7
      rfl rfl
      (fun v hv => by cases hv)
      (fun v hv => ⟨3, by cases hv; rfl⟩)
      rfl
  exact ⟨it, h1, h2, h3, h8, h12 (PyVal.int 3) 3 rfl rfl⟩

/-! ## Field lemmas for the invariant claim -/

theorem withPrice_fields (it it2 : Item) (body : Body)
    (h : withPrice it body = Except.ok it2) :
    it2.id = it.id ∧ it2.name = it.name ∧ it2.description = it.description ∧
      it2.created_at = it.created_at ∧ it2.updated_at = it.updated_at ∧
      it2.quantity = it.quantity := by
  unfold withPrice at h
  cases hpr : dictGet body "price" with
  | none =>
    rw [hpr] at h
    cases h
    exact ⟨rfl, rfl, rfl, rfl, rfl, rfl⟩
  | some v =>
    rw [hpr] at h
    cases hd : decOfPy v with
    | ok d =>
      simp only [hd, Except.ok.injEq] at h
      subst h
      exact ⟨rfl, rfl, rfl, rfl, rfl, rfl⟩
    | error e =>
      simp only [hd] at h
      exact Except.noConfusion h

theorem withQuantity_fields (it it2 : Item) (body : Body)
    (h : withQuantity it body = Except.ok it2) :
    it2.id = it.id ∧ it2.name = it.name ∧ it2.description = it.description ∧
      it2.created_at = it.created_at ∧ it2.updated_at = it.updated_at ∧
      it2.price = it.price := by
  unfold withQuantity at h
  cases hqt : dictGet body "quantity" with
  | none =>
    rw [hqt] at h
    cases h
    exact ⟨rfl, rfl, rfl, rfl, rfl, rfl⟩
  | some v =>
    rw [hqt] at h
    cases hn : intOfPy v with
    | ok n =>
      simp only [hn, Except.ok.injEq] at h
      subst h
      exact ⟨rfl, rfl, rfl, rfl, rfl, rfl⟩
    | error e =>
      simp only [hn] at h
      exact Except.noConfusion h

theorem builtItem_timestamps (body : Body) (gen_id : String) (t1 t2 : Nat) (it : Item)
    (h : builtItem body gen_id t1 t2 = Except.ok it) :
    it.id = gen_id ∧ it.created_at = t1 ∧ it.updated_at = t2 := by
  unfold builtItem at h
  cases hwp : withPrice
      { id := gen_id, name := (dictGet body "name").getD PyVal.none,
        description := (dictGet body "description").getD PyVal.none,
        created_at := t1, updated_at := t2 } body with
  | error e =>
    rw [hwp] at h
    cases h
  | ok it1 =>
    rw [hwp] at h
    obtain ⟨h1, -, -, h4, h5, -⟩ := withPrice_fields _ it1 body hwp
    obtain ⟨g1, -, -, g4, g5, -⟩ := withQuantity_fields it1 it body h
    exact ⟨g1.trans h1, g4.trans h4, g5.trans h5⟩

theorem updateBase_fields (old : Item) (body : Body) (t : Nat) :
    (updateBase old body t).id = old.id ∧
      (updateBase old body t).created_at = old.created_at ∧
      (updateBase old body t).updated_at = t ∧
      (updateBase old body t).price = old.price ∧
      (updateBase old body t).quantity = old.quantity := by
  unfold updateBase
  cases dictGet body "name" <;> cases dictGet body "description" <;>
    exact ⟨rfl, rfl, rfl, rfl, rfl⟩

theorem updatedItem_immutable (old : Item) (body : Body) (t : Nat) (newIt : Item)
    (h : updatedItem old body t = Except.ok newIt) :
    newIt.id = old.id ∧ newIt.created_at = old.created_at ∧ newIt.updated_at = t := by
  unfold updatedItem at h
  cases hwp : withPrice (updateBase old body t) body with
  | error e =>
    rw [hwp] at h
    exact Except.noConfusion h
  | ok it4 =>
    rw [hwp] at h
    obtain ⟨b1, b2, b3, -, -⟩ := updateBase_fields old body t
    obtain ⟨h1, -, -, h4, h5, -⟩ := withPrice_fields _ it4 body hwp
    obtain ⟨g1, -, -, g4, g5, -⟩ := withQuantity_fields it4 newIt body h
    exact ⟨(g1.trans h1).trans b1, (g4.trans h4).trans b2, (g5.trans h5).trans b3⟩

/-- The store invariant of the spec: every stored item has
created_at ≤ updated_at. -/
def StoreInv (s : Store) : Prop := ∀ it ∈ s, it.created_at ≤ it.updated_at

theorem StoreInv_storePut (s : Store) (it : Item) (hs : StoreInv s)
    (hit : it.created_at ≤ it.updated_at) : StoreInv (storePut s it) := by
  intro x hx
  rcases mem_storePut s it x hx with h | h
  · rw [h]
    exact hit
  · exact hs x h

/-- C7: every item persisted by any operation satisfies
created_at ≤ updated_at, and no operation after creation modifies an item's
id or created_at: create establishes the invariant when the clock does not
go backwards between its two reads, update preserves it when the clock has
not gone backwards since stored items were created, never touching id or
created_at, and delete trivially preserves it. -/
theorem c7_invariants :
    (∀ s body gen_id t1 t2, StoreInv s → t1 ≤ t2 →
      StoreInv (create_item s body gen_id t1 t2).2) ∧
    (∀ s item_id body t, StoreInv s → (∀ it ∈ s, it.created_at ≤ t) →
      StoreInv (update_item s item_id body t).2) ∧
    (∀ old body t newIt, updatedItem old body t = Except.ok newIt →
      newIt.id = old.id ∧ newIt.created_at = old.created_at) ∧
    (∀ s item_id, StoreInv s → StoreInv (delete_item s item_id).2) := by
  refine ⟨?_, ?_, ?_, ?_⟩
  · intro s body gen_id t1 t2 hs ht
    unfold create_item
    by_cases hguard : ((dictGet body "name").isNone || (dictGet body "description").isNone) = true
    · rw [if_pos hguard]
      exact hs
    · rw [if_neg hguard]
      cases hb : builtItem body gen_id t1 t2 with
      | error e => exact hs
      | ok item =>
        obtain ⟨-, h2, h3⟩ := builtItem_timestamps body gen_id t1 t2 item hb
        exact StoreInv_storePut s item hs (by rw [h2, h3]; exact ht)
  · intro s item_id body t hs hc
    unfold update_item
    cases hg : storeGet s item_id with
    | none => exact hs
    | some old =>
      cases hu : updatedItem old body t with
      | error e =>
        simp only [hu]
        exact hs
      | ok newIt =>
        simp only [hu]
        by_cases hnd : ((dictGet body "name").isNone &&
            (dictGet body "description").isNone) = true
        · rw [if_pos hnd]
          exact hs
        · rw [if_neg hnd]
          obtain ⟨-, h2, h3⟩ := updatedItem_immutable old body t newIt hu
          have hold_mem : old ∈ s := List.mem_of_find?_eq_some hg
          exact StoreInv_storePut s newIt hs (by rw [h2, h3]; exact hc old hold_mem)
  · intro old body t newIt hu
    obtain ⟨h1, h2, -⟩ := updatedItem_immutable old body t newIt hu
    exact ⟨h1, h2⟩
  · intro s item_id hs
    unfold delete_item
    cases hg : storeGet s item_id with
    | none => exact hs
    | some it =>
      intro x hx
      exact hs x (List.mem_of_mem_filter hx)

theorem c7_witness :
    StoreInv [itemA] ∧
    StoreInv (create_item [itemA]
      [("name", PyVal.str "n"), ("description", PyVal.str "d")] "b2" 5 6).2 ∧
    StoreInv (update_item [itemA] "a1" [("name", PyVal.str "n2")] 8).2 ∧
    StoreInv (delete_item [itemA] "a1").2 := by
  have hA : StoreInv [itemA] := by
    intro it hit
    rw [List.mem_singleton] at hit
    rw [hit]
    decide
  refine ⟨hA, ?_, ?_, ?_⟩
  · exact c7_invariants.1 [itemA] [("name", PyVal.str "n"), ("description", PyVal.str "d")]
      "b2" 5 6 hA (by decide)
  · refine c7_invariants.2.1 [itemA] "a1" [("name", PyVal.str "n2")] 8 hA ?_
    intro it hit
    rw [List.mem_singleton] at hit
    rw [hit]
    decide
  · exact c7_invariants.2.2.2 [itemA] "a1" hA

/-! ## Status-code range lemmas -/

theorem get_item_statusCode (s : Store) (item_id : String) :
    (get_item s item_id).statusCode = 404 ∨ (get_item s item_id).statusCode = 200 := by
  unfold get_item
  cases storeGet s item_id with
  | none => exact Or.inl rfl
  | some it => exact Or.inr rfl

theorem create_item_statusCode (s : Store) (body : Body) (gen_id : String) (t1 t2 : Nat) :
    (create_item s body gen_id t1 t2).1.statusCode = 400 ∨
    (create_item s body gen_id t1 t2).1.statusCode = 500 ∨
    (create_item s body gen_id t1 t2).1.statusCode = 201 := by
  unfold create_item
  by_cases hg : ((dictGet body "name").isNone || (dictGet body "description").isNone) = true
  · rw [if_pos hg]
    exact Or.inl rfl
  · rw [if_neg hg]
    cases builtItem body gen_id t1 t2 with
    | error e => exact Or.inr (Or.inl rfl)
    | ok item => exact Or.inr (Or.inr rfl)

theorem update_item_statusCode (s : Store) (item_id : String) (body : Body) (t : Nat) :
    (update_item s item_id body t).1.statusCode = 404 ∨
    (update_item s item_id body t).1.statusCode = 500 ∨
    (update_item s item_id body t).1.statusCode = 200 := by
  unfold update_item
  cases storeGet s item_id with
  | none => exact Or.inl rfl
  | some old =>
    cases hu : updatedItem old body t with
    | error e =>
      simp only [hu]
      exact Or.inr (Or.inl rfl)
    | ok newIt =>
      simp only [hu]
      by_cases hnd : ((dictGet body "name").isNone &&
          (dictGet body "description").isNone) = true
      · rw [if_pos hnd]
        exact Or.inr (Or.inl rfl)
      · rw [if_neg hnd]
        exact Or.inr (Or.inr rfl)

theorem delete_item_statusCode (s : Store) (item_id : String) :
    (delete_item s item_id).1.statusCode = 404 ∨
    (delete_item s item_id).1.statusCode = 200 := by
  unfold delete_item
  cases storeGet s item_id with
  | none => exact Or.inl rfl
  | some it => exact Or.inr rfl

/-- C9: the handler always returns a response: any exception escaping
dispatch or an operation (in this embedding, a body that `json.loads`
rejects) is converted at the outermost level into a 500 response carrying
the failure's message, and every response's status code is one of
200/201/400/404/500 — no request makes the handler raise. -/
theorem c9_no_crash (ev : Event) (s : Store) (gen_id : String) (t1 t2 : Nat) :
    (∀ e, lambda_handler_try ev s gen_id t1 t2 = Except.error e →
      lambda_handler ev s gen_id t1 t2 =
        (error_response 500 ("Internal server error: " ++ e), s)) ∧
    ((lambda_handler ev s gen_id t1 t2).1.statusCode = 200 ∨
     (lambda_handler ev s gen_id t1 t2).1.statusCode = 201 ∨
     (lambda_handler ev s gen_id t1 t2).1.statusCode = 400 ∨
     (lambda_handler ev s gen_id t1 t2).1.statusCode = 404 ∨
     (lambda_handler ev s gen_id t1 t2).1.statusCode = 500) := by
  constructor
  · intro e he
    unfold lambda_handler
    rw [he]
  · unfold lambda_handler
    cases htry : lambda_handler_try ev s gen_id t1 t2 with
    | error e =>
      right; right; right; right
      rfl
    | ok r =>
      unfold lambda_handler_try at htry
      by_cases h1 : (ev.method == "GET" && normalizePath ev.rawPath == "/items") = true
      · rw [if_pos h1] at htry
        cases htry
        left
        rfl
      · rw [if_neg h1] at htry
        by_cases h2 : (ev.method == "POST" && normalizePath ev.rawPath == "/items") = true
        · rw [if_pos h2] at htry
          cases hlb : loadBody ev with
          | error e =>
            rw [hlb] at htry
            exact Except.noConfusion htry
          | ok body =>
            rw [hlb] at htry
            cases htry
            rcases create_item_statusCode s body gen_id t1 t2 with h | h | h
            · right; right; left; exact h
            · right; right; right; right; exact h
            · right; left; exact h
        · rw [if_neg h2] at htry
          by_cases h3 : (ev.method == "GET" &&
              (normalizePath ev.rawPath).startsWith "/items/") = true
          · rw [if_pos h3] at htry
            cases htry
            rcases get_item_statusCode s (lastSegment (normalizePath ev.rawPath)) with h | h
            · right; right; right; left; exact h
            · left; exact h
          · rw [if_neg h3] at htry
            by_cases h4 : (ev.method == "PUT" &&
                (normalizePath ev.rawPath).startsWith "/items/") = true
            · rw [if_pos h4] at htry
              cases hlb : loadBody ev with
              | error e =>
                rw [hlb] at htry
                exact Except.noConfusion htry
              | ok body =>
                rw [hlb] at htry
                cases htry
                rcases update_item_statusCode s (lastSegment (normalizePath ev.rawPath))
                    body t1 with h | h | h
                · right; right; right; left; exact h
                · right; right; right; right; exact h
                · left; exact h
            · rw [if_neg h4] at htry
              by_cases h5 : (ev.method == "DELETE" &&
                  (normalizePath ev.rawPath).startsWith "/items/") = true
              · rw [if_pos h5] at htry
                cases htry
                rcases delete_item_statusCode s (lastSegment (normalizePath ev.rawPath)) with h | h
                · right; right; right; left; exact h
                · left; exact h
              · rw [if_neg h5] at htry
                cases htry
                right; right; right; left
                rfl

theorem c9_witness :
    lambda_handler ⟨"POST", "/items", some (Except.error "Expecting value")⟩ [] "g" 0 0 =
      (error_response 500 ("Internal server error: " ++ "Expecting value"), []) :=
  (c9_no_crash ⟨"POST", "/items", some (Except.error "Expecting value")⟩ [] "g" 0 0).1
    "Expecting value" rfl

/-- C8: a stored decimal serializes in success bodies as a plain JSON number
(a `Json.num` node, never a `Json.str`): `DecimalEncoder` converts the
stored Decimal through `float` and the dump prints that float's shortest
round-tripping digits. In particular, creating an item with price 19.99
(the JSON literal, read as a double) and then getting it yields in the
response body the numeric literal 19.99 exactly. -/
theorem c8_price_round_trip :
    (∀ it p, it.price = some p →
      jsonField (dumpsItem it) "price" = some (Json.num (decOfDbl (dblOfDec p)))) ∧
    ((create_item [] [("name", PyVal.str "Widget"), ("description", PyVal.str "Nice"),
        ("price", PyVal.float (dblOfDec ⟨1999, -2⟩))] "id1" 0 0).1.statusCode = 201 ∧
      jsonField (get_item (create_item []
          [("name", PyVal.str "Widget"), ("description", PyVal.str "Nice"),
           ("price", PyVal.float (dblOfDec ⟨1999, -2⟩))] "id1" 0 0).2 "id1").body
        "price" = some (Json.num ⟨1999, -2⟩)) := by
  constructor
  · intro it p hp
    unfold dumpsItem jsonField
    rw [hp]
    rfl
  · exact ⟨rfl, rfl⟩

theorem c8_witness :
    jsonField (dumpsItem itemA) "price" =
      some (Json.num (decOfDbl (dblOfDec (⟨1999, -2⟩ : Dec)))) :=
  c8_price_round_trip.1 itemA ⟨1999, -2⟩ rfl

/-- C1: the dispatcher's path normalization agrees with the specification's
canonical-path description on every raw path (split on `/`, drop empty
leading and trailing segments, drop a first segment naming a known stage,
rejoin with a leading `/`, empty remainder becoming `/`), routing follows
exactly the five-row method/pattern table with `{id}` taken as everything
after the last `/` and every other combination answered by a 404 naming
the method and the normalized path; in particular `/dev/items` routes
identically to `/items`. -/
theorem c1_routing :
    (∀ raw, specCanonicalPath raw = normalizePath raw) ∧
    (∀ p, specPathId p = lastSegment p) ∧
    (∀ ev s gen_id t1 t2,
      specDispatch ev s gen_id t1 t2 = lambda_handler ev s gen_id t1 t2) ∧
    (∀ b s gen_id t1 t2,
      lambda_handler ⟨"GET", "/dev/items", b⟩ s gen_id t1 t2 =
        lambda_handler ⟨"GET", "/items", b⟩ s gen_id t1 t2) :=
  ⟨specCanonicalPath_eq_normalizePath,
   fun p => (lastSegment_eq_specPathId p).symm,
   specDispatch_eq_lambda_handler,
   fun _ _ _ _ _ => rfl⟩
